import Mathlib

/-!
Shallow embedding of `src/video/video_activity.cpp` (AV Scissors).

The activity scanners are modelled as pure functions that emit an ordered
trace of events: strip writes (`event.write`) and cooperative stop-flag
checks (`event.check`).  The resulting activity strip is the fold of the
write events over the initial all-`Uninitialized` strip, which mirrors the
C++ code mutating `videoFrameIsActive` / `audioFrameIsActive` in place.
The C++ `real` (double) arithmetic of the audio scanner is modelled with
exact rationals; `uint` loop arithmetic is modelled with `Nat`, with the
one wrap-around (`closest--` at zero in `get_start_of_active_segment`)
made explicit.  Audio data is an `Option (List Int)`: `none` models
"no valid audio" (extraction failed or the file had no usable data).
-/

/-- Per-frame activity states, as in `activity_type_e` of the source. -/
inductive activity_type_e where
  | Uninitialized
  | NoData
  | Inactive
  | Active
deriving DecidableEq, Repr

/-- One 3-channel pixel (values are `u8`, i.e. in `0..255`). -/
structure pix3 where
  c0 : Nat
  c1 : Nat
  c2 : Nat
deriving DecidableEq, Repr

/-- `video_activity_c::frames_differ` (lines 234-258).  `frame1 - frame2` on
8-bit OpenCV matrices is a saturating per-channel subtraction (clamped at 0),
which `Nat` subtraction models exactly; the C++ then applies `abs` to the
already-unsigned channel (a no-op) and compares with strict `>`. -/
def frames_differ (frame1 frame2 : List pix3) (threshold : Nat) : Bool :=
  (frame1.zip frame2).any fun pq =>
    decide (pq.1.c0 - pq.2.c0 > threshold) ||
    decide (pq.1.c1 - pq.2.c1 > threshold) ||
    decide (pq.1.c2 - pq.2.c2 > threshold)

/-- A scanner event: a strip write, or a read of the stop flag (`check i b`
records that the flag was consulted at loop index `i` and read value `b`). -/
inductive event where
  | write (idx : Nat) (val : activity_type_e)
  | check (idx : Nat) (stopped : Bool)
deriving DecidableEq, Repr

/-- Replay the write events over a strip (index-out-of-range writes leave the
list unchanged; the traces expose them, see the safety claims). -/
def applyEvents (strip : List activity_type_e) : List event → List activity_type_e
  | [] => strip
  | event.write i v :: rest => applyEvents (strip.set i v) rest
  | event.check _ _ :: rest => applyEvents strip rest

/-- `sumAmplitude` accumulator of lines 181-187 (an `i64`, modelled exactly). -/
def sumAmplitude (samples : List Int) : Int :=
  samples.foldl (fun a s => a + s) 0

/-- `maxAmplitude` accumulator of lines 179-193: running maximum of `abs(sample)`. -/
def maxAmplitude (samples : List Int) : Nat :=
  samples.foldl (fun m s => if s.natAbs > m then s.natAbs else m) 0

/-- `avgAmplitude` of line 195: `sumAmplitude / (real)num_samples()`. -/
def avgAmplitude (samples : List Int) : ℚ :=
  (sumAmplitude samples : ℚ) / (samples.length : ℚ)

/-- `thresholdAmplitude` of line 201: `(maxAmplitude - avgAmplitude) * 0.001`. -/
def thresholdAmplitude (samples : List Int) : ℚ :=
  ((maxAmplitude samples : ℚ) - avgAmplitude samples) * (1 / 1000)

/-- `audio->sample_at(k)`; the scanner only queries in-range offsets. -/
def sample_at (samples : List Int) (k : Nat) : Int :=
  samples.getD k 0

/-- `sampleOffs` of line 205: `(num_samples / (real)num_frames) * i`, then the
implicit conversion of the nonnegative `real` to `uint`, which truncates. -/
def sampleOffs (numSamples numFrames i : Nat) : Nat :=
  (⌊((numSamples : ℚ) / (numFrames : ℚ)) * (i : ℚ)⌋).toNat

/-- `loudSample` of line 206: `fabs(sample_at(sampleOffs)) > fabs(thresholdAmplitude)`. -/
def loudSample (samples : List Int) (numFrames i : Nat) : Bool :=
  decide (|((sample_at samples (sampleOffs samples.length numFrames i) : ℤ) : ℚ)| >
    |thresholdAmplitude samples|)

/-- `numFramesToSkip` of lines 213-214 and 301-302. -/
def numFramesToSkip (i timeGranularity numFrames : Nat) : Nat :=
  if i + timeGranularity > numFrames then numFrames - i else timeGranularity

/-- The inner coalescing loop (lines 216-219 / 304-307): starting at the
current index `i` it writes `Active` to `i, i+1, ..., i+skip-1`. -/
def coalesceWrites (i skip : Nat) : List event :=
  (List.range skip).map fun p => event.write (i + p) activity_type_e.Active

/-- The periodic stop-flag poll (lines 222-227 / 316-321): the flag is read
only when `i % 200 == 0` (short-circuit of the `&&`). -/
def checkEvents (i : Nat) (stop : Nat → Bool) : List event :=
  if i % 200 == 0 then [event.check i (stop i)] else []

/-- Whether the poll at index `i` observes the stop request. -/
def stopNow (i : Nat) (stop : Nat → Bool) : Bool :=
  i % 200 == 0 && stop i

/-- One iteration of the audio scan loop body (lines 203-220): the direct
write of line 208, the coalescing writes of lines 211-220 when the sample is
loud, and the index the loop variable has advanced to afterwards. -/
def audioIterEvents (numFrames timeGranularity : Nat) (samples : List Int)
    (i : Nat) : List event × Nat :=
  let loud := loudSample samples numFrames i
  let skip := if loud then numFramesToSkip i timeGranularity numFrames else 0
  (event.write i (if loud then activity_type_e.Active else activity_type_e.Inactive) ::
    coalesceWrites i skip, i + skip)

/-- The scanning loop of `mark_audio_frame_activity` (lines 203-228), as an
event trace.  `fuel` is an upper bound on the remaining iterations (the index
strictly increases each iteration, so `numFrames + 1` always suffices). -/
def audioLoopE (numFrames timeGranularity : Nat) (samples : List Int)
    (stop : Nat → Bool) : Nat → Nat → List event
  | 0, _ => []
  | fuel + 1, i =>
    if i < numFrames then
      let r := audioIterEvents numFrames timeGranularity samples i
      let evs := r.1 ++ checkEvents r.2 stop
      if stopNow r.2 stop then evs
      else evs ++ audioLoopE numFrames timeGranularity samples stop fuel (r.2 + 1)
    else []

/-- Event trace of `mark_audio_frame_activity` (lines 163-232).  With no
valid audio, the `qFill(..., NoData)` of line 170 writes every index; with
valid audio the scan loop runs with `timeGranularity = numFrames / 50`. -/
def audioEvents (numFrames : Nat) (audio : Option (List Int))
    (stop : Nat → Bool) : List event :=
  match audio with
  | none => (List.range numFrames).map fun k => event.write k activity_type_e.NoData
  | some samples =>
      audioLoopE numFrames (numFrames / 50) samples stop (numFrames + 1) 0

/-- The audio activity strip produced by `mark_audio_frame_activity`. -/
def mark_audio_frame_activity (numFrames : Nat) (audio : Option (List Int))
    (stop : Nat → Bool) : List activity_type_e :=
  applyEvents (List.replicate numFrames activity_type_e.Uninitialized)
    (audioEvents numFrames audio stop)

/-- `video_activity_c::has_valid_audio` (lines 89-93): the audio object exists
and holds valid data; both failure modes are collapsed into `none`. -/
def has_valid_audio (audio : Option (List Int)) : Bool :=
  audio.isSome

/-- One iteration of the video scan loop body (lines 282-314).  After a run
of coalesced `Active` writes the code writes an explicit `Inactive` baseline
at the index just past the run (line 311) and seeks the capture there, so
every comparison is between `frames i` and `frames (i - 1)`. -/
def videoIterEvents (numFrames timeGranularity : Nat) (frames : Nat → List pix3)
    (i : Nat) : List event × Nat :=
  if frames_differ (frames i) (frames (i - 1)) 30 then
    let skip := numFramesToSkip i timeGranularity numFrames
    (event.write i activity_type_e.Active ::
      (coalesceWrites i skip ++ [event.write (i + skip) activity_type_e.Inactive]),
      i + skip)
  else ([event.write i activity_type_e.Inactive], i)

/-- The scanning loop of `mark_video_frame_activity` (lines 280-322), as an
event trace; same fuel convention as the audio loop. -/
def videoLoopE (numFrames timeGranularity : Nat) (frames : Nat → List pix3)
    (stop : Nat → Bool) : Nat → Nat → List event
  | 0, _ => []
  | fuel + 1, i =>
    if i < numFrames then
      let r := videoIterEvents numFrames timeGranularity frames i
      let evs := r.1 ++ checkEvents r.2 stop
      if stopNow r.2 stop then evs
      else evs ++ videoLoopE numFrames timeGranularity frames stop fuel (r.2 + 1)
    else []

/-- Event trace of `mark_video_frame_activity` (lines 263-328): frame 0 is
written `Inactive` unconditionally (line 278), then the loop starts at 1. -/
def videoEvents (numFrames : Nat) (frames : Nat → List pix3)
    (stop : Nat → Bool) : List event :=
  event.write 0 activity_type_e.Inactive ::
    videoLoopE numFrames (numFrames / 50) frames stop (numFrames + 1) 1

/-- The video activity strip produced by `mark_video_frame_activity`. -/
def mark_video_frame_activity (numFrames : Nat) (frames : Nat → List pix3)
    (stop : Nat → Bool) : List activity_type_e :=
  applyEvents (List.replicate numFrames activity_type_e.Uninitialized)
    (videoEvents numFrames frames stop)

/-- Largest value of the C++ `uint` (32-bit). -/
def UINT_MAX : Nat := 4294967295

/-- The backward loop of `get_start_of_active_segment` (lines 106-122),
returning the result together with the list of strip indices it reads.
`closest--` is the wrapping `uint` decrement; the read of an out-of-range
index (`.at`) is modelled as returning `Uninitialized`, and the returned
value `closest + 1` is reduced modulo 2^32 as `uint` arithmetic would be.
The `fuel` bound `startFrameIdx + 2` covers every possible path: the cursor
only decreases, except for the single possible wrap from 0 to `UINT_MAX`,
which is immediately followed by an out-of-range (hence non-`Active`) read. -/
def segLoopFuel (frameActivity : List activity_type_e) :
    Nat → Nat → Nat × List Nat
  | 0, closest => ((closest + 1) % 4294967296, [])
  | fuel + 1, closest =>
    if frameActivity.getD closest activity_type_e.Uninitialized =
        activity_type_e.Active then
      let closest1 := if closest = 0 then UINT_MAX else closest - 1
      if closest1 = 0 then (0, [closest])
      else
        let r := segLoopFuel frameActivity fuel closest1
        (r.1, closest :: r.2)
    else ((closest + 1) % 4294967296, [closest])

/-- `get_start_of_active_segment` (lines 106-122), on the strip selected by
the `videoOrAudio` argument of the C++ member function. -/
def get_start_of_active_segment (frameActivity : List activity_type_e)
    (startFrameIdx : Nat) : Nat :=
  (segLoopFuel frameActivity (startFrameIdx + 2) startFrameIdx).1

/-- The strip indices read by `get_start_of_active_segment`. -/
def segReads (frameActivity : List activity_type_e) (startFrameIdx : Nat) :
    List Nat :=
  (segLoopFuel frameActivity (startFrameIdx + 2) startFrameIdx).2

def exSamplesA : List Int := 1000 :: List.replicate 49 0

def exFramesA : Nat → List pix3 := fun k =>
  if k = 49 then [⟨100, 0, 0⟩] else [⟨0, 0, 0⟩]

/-- Does this event write strip index `k`? -/
def writeHits (k : Nat) : event → Bool
  | event.write j _ => j == k
  | event.check _ _ => false

/-- Whether the trace contains a write to strip index `k`. -/
def writesIndex (k : Nat) (t : List event) : Bool :=
  t.any (writeHits k)

/-- A check event polled at an index divisible by 200 (writes pass trivially). -/
def checkOk : event → Bool
  | event.write _ _ => true
  | event.check j _ => j % 200 == 0

/-- Every stop-flag poll in the trace happened at an index divisible by 200. -/
def checksAligned (t : List event) : Bool :=
  t.all checkOk

/-- No event follows a stop-flag poll that observed the stop request: once the
flag is seen set, the scan emits nothing further. -/
def haltsOnStop : List event → Bool
  | [] => true
  | event.check _ true :: rest => rest.isEmpty
  | event.check _ false :: rest => haltsOnStop rest
  | event.write _ _ :: rest => haltsOnStop rest

/-- All write events in the trace target indices at least `n`. -/
def writesGE (n : Nat) (t : List event) : Bool :=
  t.all fun e =>
    match e with
    | event.write j _ => n ≤ j
    | event.check _ _ => true

theorem applyEvents_append (t1 t2 : List event) :
    ∀ s, applyEvents s (t1 ++ t2) = applyEvents (applyEvents s t1) t2 := by
  induction t1 with
  | nil => intro s; rfl
  | cons e t ih => intro s; cases e <;> simp [applyEvents, ih]

theorem length_applyEvents (t : List event) :
    ∀ s, (applyEvents s t).length = s.length := by
  induction t with
  | nil => intro s; rfl
  | cons e t ih => intro s; cases e <;> simp [applyEvents, ih]

theorem getD_set_ne {α : Type} (l : List α) (i j : Nat) (v d : α) (h : i ≠ j) :
    (l.set i v).getD j d = l.getD j d := by
  simp [List.getD_eq_getElem?_getD, List.getElem?_set_ne h]

theorem getD_set_self {α : Type} (l : List α) (i : Nat) (v d : α)
    (h : i < l.length) : (l.set i v).getD i d = v := by
  rw [List.getD_eq_getElem?_getD, List.getElem?_set_self h]
  rfl

theorem getD_replicate {α : Type} (n k : Nat) (a : α) :
    (List.replicate n a).getD k a = a := by
  rw [List.getD_eq_getElem?_getD, List.getElem?_replicate]
  split <;> rfl

theorem applyEvents_getD_of_no_write (t : List event) :
    ∀ (s : List activity_type_e) (k : Nat) (d : activity_type_e),
      writesIndex k t = false → (applyEvents s t).getD k d = s.getD k d := by
  induction t with
  | nil => intro s k d _; rfl
  | cons e t ih =>
    intro s k d h
    cases e with
    | write j v =>
      simp only [writesIndex, List.any_cons, writeHits, Bool.or_eq_false_iff,
        beq_eq_false_iff_ne, ne_eq] at h
      rw [show applyEvents s (event.write j v :: t) = applyEvents (s.set j v) t from rfl]
      rw [ih (s.set j v) k d h.2]
      exact getD_set_ne s j k v d h.1
    | check j b =>
      simp only [writesIndex, List.any_cons, writeHits, Bool.false_or] at h
      exact ih s k d h

theorem applyEvents_checkEvents (i : Nat) (stop : Nat → Bool) (t : List event)
    (s : List activity_type_e) :
    applyEvents s (checkEvents i stop ++ t) = applyEvents s t := by
  unfold checkEvents
  split <;> simp [applyEvents]

theorem writesIndex_of_writesGE (t : List event) (n k : Nat)
    (hGE : writesGE n t = true) (hk : k < n) : writesIndex k t = false := by
  rw [writesIndex]
  rw [List.any_eq_false]
  intro e he
  have hthis := (List.all_eq_true.mp hGE) e he
  cases e with
  | write j v =>
    have hnj : n ≤ j := by simpa using hthis
    simp only [writeHits, beq_iff_eq]
    omega
  | check j b => simp [writeHits]

theorem writesGE_append (n : Nat) (t1 t2 : List event) :
    writesGE n (t1 ++ t2) = (writesGE n t1 && writesGE n t2) := by
  simp [writesGE]

theorem writesGE_mono (t : List event) (n m : Nat) (h : n ≤ m)
    (hGE : writesGE m t = true) : writesGE n t = true := by
  rw [writesGE, List.all_eq_true]
  intro e he
  have := (List.all_eq_true.mp hGE) e he
  cases e with
  | write j v => simp only [decide_eq_true_eq] at this ⊢; omega
  | check j b => simp

theorem writesGE_coalesce (n i skip : Nat) (h : n ≤ i) :
    writesGE n (coalesceWrites i skip) = true := by
  rw [writesGE, coalesceWrites, List.all_eq_true]
  intro e he
  obtain ⟨p, -, rfl⟩ := List.mem_map.mp he
  simpa using Nat.le_add_right_of_le h

theorem writesGE_checkEvents (n i : Nat) (stop : Nat → Bool) :
    writesGE n (checkEvents i stop) = true := by
  unfold checkEvents
  split <;> simp [writesGE]

theorem writesGE_cons_write (n j : Nat) (v : activity_type_e) (t : List event) :
    writesGE n (event.write j v :: t) = (decide (n ≤ j) && writesGE n t) := by
  simp [writesGE]

theorem writesGE_cons_check (n j : Nat) (b : Bool) (t : List event) :
    writesGE n (event.check j b :: t) = writesGE n t := by
  simp [writesGE]

theorem audioIter_writesGE (N G : Nat) (ss : List Int) (i : Nat) :
    writesGE i (audioIterEvents N G ss i).1 = true := by
  simp [audioIterEvents, writesGE_cons_write, writesGE_coalesce]

theorem audioIter_le (N G : Nat) (ss : List Int) (i : Nat) :
    i ≤ (audioIterEvents N G ss i).2 := by
  simp [audioIterEvents]

theorem videoIter_writesGE (N G : Nat) (frames : Nat → List pix3) (i : Nat) :
    writesGE i (videoIterEvents N G frames i).1 = true := by
  unfold videoIterEvents
  split
  · rw [writesGE_cons_write, writesGE_append,
      writesGE_coalesce _ _ _ le_rfl, writesGE_cons_write]
    simp [writesGE]
  · simp [writesGE]

theorem videoIter_le (N G : Nat) (frames : Nat → List pix3) (i : Nat) :
    i ≤ (videoIterEvents N G frames i).2 := by
  unfold videoIterEvents
  split <;> simp

theorem audioLoopE_writesGE (N G : Nat) (ss : List Int) (stop : Nat → Bool) :
    ∀ fuel i, writesGE i (audioLoopE N G ss stop fuel i) = true := by
  intro fuel
  induction fuel with
  | zero => intro i; rfl
  | succ fuel ih =>
    intro i
    simp only [audioLoopE]
    split
    · have h1 := audioIter_writesGE N G ss i
      have h2 := audioIter_le N G ss i
      split
      · rw [writesGE_append]
        simp [h1, writesGE_checkEvents]
      · rw [writesGE_append, writesGE_append]
        have h3 := writesGE_mono _ i ((audioIterEvents N G ss i).2 + 1)
          (by omega) (ih ((audioIterEvents N G ss i).2 + 1))
        simp [h1, writesGE_checkEvents, h3]
    · rfl

theorem videoLoopE_writesGE (N G : Nat) (frames : Nat → List pix3)
    (stop : Nat → Bool) :
    ∀ fuel i, writesGE i (videoLoopE N G frames stop fuel i) = true := by
  intro fuel
  induction fuel with
  | zero => intro i; rfl
  | succ fuel ih =>
    intro i
    simp only [videoLoopE]
    split
    · have h1 := videoIter_writesGE N G frames i
      have h2 := videoIter_le N G frames i
      split
      · rw [writesGE_append]
        simp [h1, writesGE_checkEvents]
      · rw [writesGE_append, writesGE_append]
        have h3 := writesGE_mono _ i ((videoIterEvents N G frames i).2 + 1)
          (by omega) (ih ((videoIterEvents N G frames i).2 + 1))
        simp [h1, writesGE_checkEvents, h3]
    · rfl

/-- C1: the claim says `frames_differ` is true iff some pixel differs by more
than the threshold in some channel as an absolute (symmetric) difference.
The code computes `frame1 - frame2` with per-channel saturation at 0, so a
pixel in which `frame2` is the brighter image is invisible: for the 1-pixel
frames below, channel 0 differs by 100 > 30, yet the predicate is false in
one order and true in the other.  The claim (and the dead `abs()` call in the
source) describe the intended symmetric behaviour; the code is wrong. -/
theorem frames_differ_not_absolute_difference :
    frames_differ [⟨0, 0, 0⟩] [⟨100, 0, 0⟩] 30 = false ∧
    frames_differ [⟨100, 0, 0⟩] [⟨0, 0, 0⟩] 30 = true := by
  constructor <;> rfl

/-- C3: the claim (and the spec scenario) says that on the strip
`[Inactive, Active, Active, Active, Inactive]` the backward search from
index 2 returns 1, the start of the active run.  The code returns 0: the
loop returns 0 as soon as the cursor reaches index 0, without checking
whether frame 0 is `Active`, so every run starting at index 1 is misreported
as starting at 0. -/
theorem get_start_of_active_segment_off_by_one :
    get_start_of_active_segment
      [activity_type_e.Inactive, activity_type_e.Active, activity_type_e.Active,
       activity_type_e.Active, activity_type_e.Inactive] 2 = 0 := by
  decide

/-- C5: two bounds violations refuting the claim.  First, in a 50-frame video
(`G = 1`) whose frame 49 differs from frame 48, the trigger at `i = 49` makes
the post-run baseline write of line 311 target index `49 + 1 = 50 = numFrames`,
one past the end of the strip.  Second, `get_start_of_active_segment` called
on an `Active` index 0 decrements the `uint` cursor past zero and reads index
`UINT_MAX = 2^32 - 1`, far outside the strip. -/
theorem video_scan_writes_out_of_bounds :
    event.write 50 activity_type_e.Inactive ∈
      videoEvents 50 exFramesA (fun _ => false) ∧
    UINT_MAX ∈ segReads [activity_type_e.Active] 0 := by
  constructor <;> decide

/-- C10: for every frame source, stop flag and positive frame count, index 0
of the video strip is `Inactive`: line 278 writes it before the loop, the
loop starts at index 1, and every later write (direct, coalescing or
baseline) targets an index at least 1. -/
theorem video_frame_zero_inactive (N : Nat) (frames : Nat → List pix3)
    (stop : Nat → Bool) (h : 0 < N) :
    (mark_video_frame_activity N frames stop).getD 0 activity_type_e.Uninitialized =
      activity_type_e.Inactive := by
  unfold mark_video_frame_activity videoEvents
  rw [show applyEvents (List.replicate N activity_type_e.Uninitialized)
        (event.write 0 activity_type_e.Inactive ::
          videoLoopE N (N / 50) frames stop (N + 1) 1) =
      applyEvents ((List.replicate N activity_type_e.Uninitialized).set 0
        activity_type_e.Inactive)
        (videoLoopE N (N / 50) frames stop (N + 1) 1) from rfl]
  rw [applyEvents_getD_of_no_write _ _ _ _
    (writesIndex_of_writesGE _ 1 0 (videoLoopE_writesGE N (N / 50) frames stop (N + 1) 1)
      Nat.one_pos)]
  exact getD_set_self _ 0 _ _ (by simpa using h)

/-- Witness for C10 at a concrete input. -/
theorem video_frame_zero_inactive_witness :
    (mark_video_frame_activity 1 (fun _ => []) (fun _ => false)).getD 0
      activity_type_e.Uninitialized = activity_type_e.Inactive :=
  video_frame_zero_inactive 1 (fun _ => []) (fun _ => false) (by decide)

theorem haltsOnStop_cons_write (j : Nat) (v : activity_type_e) (t : List event) :
    haltsOnStop (event.write j v :: t) = haltsOnStop t := rfl

theorem haltsOnStop_cons_check_false (j : Nat) (t : List event) :
    haltsOnStop (event.check j false :: t) = haltsOnStop t := rfl

theorem haltsOnStop_cons_check_true (j : Nat) (t : List event) :
    haltsOnStop (event.check j true :: t) = t.isEmpty := rfl

theorem haltsOnStop_mapwrites (f : Nat → Nat) (v : activity_type_e)
    (l : List Nat) (t : List event) :
    haltsOnStop ((l.map fun p => event.write (f p) v) ++ t) = haltsOnStop t := by
  induction l with
  | nil => rfl
  | cons b l ih => simpa [haltsOnStop_cons_write] using ih

theorem haltsOnStop_coalesce (i skip : Nat) (t : List event) :
    haltsOnStop (coalesceWrites i skip ++ t) = haltsOnStop t :=
  haltsOnStop_mapwrites _ _ _ t

theorem haltsOnStop_audioIter (N G : Nat) (ss : List Int) (i : Nat)
    (t : List event) :
    haltsOnStop ((audioIterEvents N G ss i).1 ++ t) = haltsOnStop t := by
  simp only [audioIterEvents, List.cons_append, haltsOnStop_cons_write]
  exact haltsOnStop_coalesce _ _ t

theorem haltsOnStop_videoIter (N G : Nat) (frames : Nat → List pix3) (i : Nat)
    (t : List event) :
    haltsOnStop ((videoIterEvents N G frames i).1 ++ t) = haltsOnStop t := by
  unfold videoIterEvents
  split
  · simp only [List.cons_append, List.append_assoc, haltsOnStop_cons_write,
      List.singleton_append]
    rw [haltsOnStop_coalesce]
    exact haltsOnStop_cons_write _ _ t
  · simp only [List.cons_append, List.nil_append, haltsOnStop_cons_write]

theorem checkOk_checkEvents (i : Nat) (stop : Nat → Bool) :
    (checkEvents i stop).all checkOk = true := by
  unfold checkEvents
  split
  · rename_i h
    simpa [checkOk] using h
  · rfl

theorem checkOk_audioIter (N G : Nat) (ss : List Int) (i : Nat) :
    (audioIterEvents N G ss i).1.all checkOk = true := by
  simp [audioIterEvents, checkOk, coalesceWrites, Function.comp]

theorem checkOk_videoIter (N G : Nat) (frames : Nat → List pix3) (i : Nat) :
    (videoIterEvents N G frames i).1.all checkOk = true := by
  unfold videoIterEvents
  split
  · simp [checkOk, coalesceWrites, Function.comp]
  · simp [checkOk]

theorem audioLoopE_halts (N G : Nat) (ss : List Int) (stop : Nat → Bool) :
    ∀ fuel i, haltsOnStop (audioLoopE N G ss stop fuel i) = true := by
  intro fuel
  induction fuel with
  | zero => intro i; rfl
  | succ fuel ih =>
    intro i
    simp only [audioLoopE]
    split
    · split
      · rename_i hstop
        rw [haltsOnStop_audioIter]
        have hc : (audioIterEvents N G ss i).2 % 200 == 0 := by
          revert hstop; unfold stopNow; cases (audioIterEvents N G ss i).2 % 200 == 0 <;> simp
        have hs : stop (audioIterEvents N G ss i).2 = true := by
          revert hstop; unfold stopNow; cases hss : stop (audioIterEvents N G ss i).2 <;> simp
        rw [checkEvents, if_pos hc, hs]
        rfl
      · rename_i hstop
        rw [List.append_assoc, haltsOnStop_audioIter]
        rcases hc : ((audioIterEvents N G ss i).2 % 200 == 0) with _ | _
        · rw [checkEvents, if_neg (by simp [hc])]
          simpa using ih _
        · have hs : stop (audioIterEvents N G ss i).2 = false := by
            revert hstop; unfold stopNow; rw [hc]
            cases hss : stop (audioIterEvents N G ss i).2 <;> simp
          rw [checkEvents, if_pos hc, hs]
          simpa [haltsOnStop_cons_check_false] using ih _
    · rfl

theorem videoLoopE_halts (N G : Nat) (frames : Nat → List pix3)
    (stop : Nat → Bool) :
    ∀ fuel i, haltsOnStop (videoLoopE N G frames stop fuel i) = true := by
  intro fuel
  induction fuel with
  | zero => intro i; rfl
  | succ fuel ih =>
    intro i
    simp only [videoLoopE]
    split
    · split
      · rename_i hstop
        rw [haltsOnStop_videoIter]
        have hc : (videoIterEvents N G frames i).2 % 200 == 0 := by
          revert hstop; unfold stopNow
          cases (videoIterEvents N G frames i).2 % 200 == 0 <;> simp
        have hs : stop (videoIterEvents N G frames i).2 = true := by
          revert hstop; unfold stopNow
          cases hss : stop (videoIterEvents N G frames i).2 <;> simp
        rw [checkEvents, if_pos hc, hs]
        rfl
      · rename_i hstop
        rw [List.append_assoc, haltsOnStop_videoIter]
        rcases hc : ((videoIterEvents N G frames i).2 % 200 == 0) with _ | _
        · rw [checkEvents, if_neg (by simp [hc])]
          simpa using ih _
        · have hs : stop (videoIterEvents N G frames i).2 = false := by
            revert hstop; unfold stopNow; rw [hc]
            cases hss : stop (videoIterEvents N G frames i).2 <;> simp
          rw [checkEvents, if_pos hc, hs]
          simpa [haltsOnStop_cons_check_false] using ih _
    · rfl

theorem audioLoopE_checks (N G : Nat) (ss : List Int) (stop : Nat → Bool) :
    ∀ fuel i, checksAligned (audioLoopE N G ss stop fuel i) = true := by
  intro fuel
  induction fuel with
  | zero => intro i; rfl
  | succ fuel ih =>
    intro i
    simp only [audioLoopE]
    split
    · split
      · rw [checksAligned, List.all_append]
        simp [checkOk_audioIter, checkOk_checkEvents, checksAligned]
      · rw [checksAligned, List.all_append, List.all_append]
        have h3 := ih ((audioIterEvents N G ss i).2 + 1)
        rw [checksAligned] at h3
        simp [checkOk_audioIter, checkOk_checkEvents, h3]
    · rfl

theorem videoLoopE_checks (N G : Nat) (frames : Nat → List pix3)
    (stop : Nat → Bool) :
    ∀ fuel i, checksAligned (videoLoopE N G frames stop fuel i) = true := by
  intro fuel
  induction fuel with
  | zero => intro i; rfl
  | succ fuel ih =>
    intro i
    simp only [videoLoopE]
    split
    · split
      · rw [checksAligned, List.all_append]
        simp [checkOk_videoIter, checkOk_checkEvents, checksAligned]
      · rw [checksAligned, List.all_append, List.all_append]
        have h3 := ih ((videoIterEvents N G frames i).2 + 1)
        rw [checksAligned] at h3
        simp [checkOk_videoIter, checkOk_checkEvents, h3]
    · rfl

/-- C9: for every input and stop flag, (a) every stop-flag poll of either
scanner happens at a loop index divisible by 200, (b) once a poll observes
the flag set, the scan emits no further event at all (so no further strip
write), and (c) every strip index never written by the trace still reads
`Uninitialized` in the resulting strip -- entries written before the stop
keep their values because the strip is exactly the fold of the emitted
writes.  This holds for the audio scanner (in both the no-audio and the
valid-audio mode) and for the video scanner. -/
theorem scan_stop_flag_behavior (N : Nat) (audio : Option (List Int))
    (frames : Nat → List pix3) (stop : Nat → Bool) :
    checksAligned (audioEvents N audio stop) = true ∧
    haltsOnStop (audioEvents N audio stop) = true ∧
    checksAligned (videoEvents N frames stop) = true ∧
    haltsOnStop (videoEvents N frames stop) = true ∧
    ((List.range N).all fun k =>
      writesIndex k (audioEvents N audio stop) ||
        ((mark_audio_frame_activity N audio stop).getD k
            activity_type_e.Uninitialized == activity_type_e.Uninitialized)) = true ∧
    ((List.range N).all fun k =>
      writesIndex k (videoEvents N frames stop) ||
        ((mark_video_frame_activity N frames stop).getD k
            activity_type_e.Uninitialized == activity_type_e.Uninitialized)) = true := by
  refine ⟨?_, ?_, ?_, ?_, ?_, ?_⟩
  · cases audio with
    | none => simp [audioEvents, checksAligned, checkOk, Function.comp]
    | some ss => exact audioLoopE_checks N (N / 50) ss stop (N + 1) 0
  · cases audio with
    | none =>
      have h := haltsOnStop_mapwrites (fun p => p) activity_type_e.NoData
        (List.range N) []
      simpa [audioEvents] using h
    | some ss => exact audioLoopE_halts N (N / 50) ss stop (N + 1) 0
  · have h := videoLoopE_checks N (N / 50) frames stop (N + 1) 1
    rw [checksAligned] at h
    rw [videoEvents, checksAligned, List.all_cons]
    simp [checkOk, h]
  · rw [videoEvents, haltsOnStop_cons_write]
    exact videoLoopE_halts N (N / 50) frames stop (N + 1) 1
  · rw [List.all_eq_true]
    intro k _
    show (writesIndex k (audioEvents N audio stop) ||
      ((mark_audio_frame_activity N audio stop).getD k
          activity_type_e.Uninitialized == activity_type_e.Uninitialized)) = true
    cases hw : writesIndex k (audioEvents N audio stop) with
    | false =>
      have hp := applyEvents_getD_of_no_write (audioEvents N audio stop)
        (List.replicate N activity_type_e.Uninitialized) k
        activity_type_e.Uninitialized hw
      rw [mark_audio_frame_activity, hp, getD_replicate]
      simp
    | true => simp
  · rw [List.all_eq_true]
    intro k _
    show (writesIndex k (videoEvents N frames stop) ||
      ((mark_video_frame_activity N frames stop).getD k
          activity_type_e.Uninitialized == activity_type_e.Uninitialized)) = true
    cases hw : writesIndex k (videoEvents N frames stop) with
    | false =>
      have hp := applyEvents_getD_of_no_write (videoEvents N frames stop)
        (List.replicate N activity_type_e.Uninitialized) k
        activity_type_e.Uninitialized hw
      rw [mark_video_frame_activity, hp, getD_replicate]
      simp
    | true => simp

theorem applyEvents_fill_getElem (v : activity_type_e) :
    ∀ (n a : Nat) (s : List activity_type_e) (j : Nat),
      (applyEvents s ((List.range' a n).map fun k => event.write k v))[j]? =
        if a ≤ j ∧ j < a + n ∧ j < s.length then some v else s[j]? := by
  intro n
  induction n with
  | zero =>
    intro a s j
    rw [show List.range' a 0 = [] from rfl]
    rw [List.map_nil, show applyEvents s [] = s from rfl]
    rw [if_neg (by omega)]
  | succ n ih =>
    intro a s j
    rw [List.range'_succ, List.map_cons]
    rw [show applyEvents s
          (event.write a v :: (List.range' (a + 1) n).map fun k => event.write k v) =
        applyEvents (s.set a v) ((List.range' (a + 1) n).map fun k => event.write k v)
        from rfl]
    rw [ih (a + 1) (s.set a v) j, List.length_set]
    by_cases hja : j = a
    · subst hja
      rw [if_neg (by omega)]
      by_cases hjl : j < s.length
      · rw [List.getElem?_set_self hjl, if_pos ⟨le_rfl, by omega, hjl⟩]
      · rw [if_neg (by omega)]
        rw [List.getElem?_eq_none (by simpa using not_lt.mp hjl),
          List.getElem?_eq_none (not_lt.mp hjl)]
    · rw [List.getElem?_set_ne (by omega)]
      by_cases hc : a ≤ j ∧ j < a + (n + 1) ∧ j < s.length
      · rw [if_pos (by omega), if_pos hc]
      · rw [if_neg (by omega), if_neg hc]

/-- C8: with no valid audio, the audio scanner fills the whole strip with
`NoData` (the `qFill` of line 170) and returns; `has_valid_audio` is false.
The video scanner takes no audio input at all, so it is unaffected by
construction.  This is the expected degraded mode, not an error. -/
theorem audio_no_data_fill (N : Nat) (stop : Nat → Bool) :
    mark_audio_frame_activity N none stop =
      List.replicate N activity_type_e.NoData ∧
    has_valid_audio none = false := by
  constructor
  · rw [mark_audio_frame_activity]
    rw [show audioEvents N none stop =
        (List.range N).map fun k => event.write k activity_type_e.NoData from rfl]
    rw [List.range_eq_range']
    apply List.ext_getElem?
    intro j
    rw [applyEvents_fill_getElem activity_type_e.NoData N 0 _ j]
    rw [List.length_replicate]
    rw [List.getElem?_replicate, List.getElem?_replicate]
    by_cases hj : j < N
    · rw [if_pos (by omega), if_pos hj]
    · rw [if_neg (by omega), if_neg hj, if_neg hj]
  · rfl

/-- C6 counterexample: the claim says the representative sample index is
`round(i * numSamples / numFrames)`.  For `numSamples = 2`, `numFrames = 3`,
`i = 1` the code computes `uint((2/3.0) * 1) = 0` (conversion to `uint`
truncates), while rounding `2/3` to the nearest integer gives `1`. -/
theorem sampleOffs_not_round :
    (sampleOffs 2 3 1 : ℤ) ≠ round (((1 : ℚ) * 2) / 3) := by
  have h1 : sampleOffs 2 3 1 = 0 := by
    rw [sampleOffs]
    have hf : ⌊((2 : ℕ) : ℚ) / ((3 : ℕ) : ℚ) * ((1 : ℕ) : ℚ)⌋ = 0 := by
      rw [Int.floor_eq_iff]
      constructor <;> norm_num
    rw [hf]
    rfl
  have h2 : round (((1 : ℚ) * 2) / 3) = 1 := by
    rw [round_eq]
    have hq : ((1 : ℚ) * 2) / 3 + 1 / 2 = 7 / 6 := by norm_num
    rw [hq, Int.floor_eq_iff]
    constructor <;> norm_num
  rw [h1, h2]
  decide

/-- C6 amended: the representative sample index the audio scanner uses is the
truncation (floor) of `numSamples / numFrames * i`, i.e. the integer
division `numSamples * i / numFrames`, not the value rounded to nearest. -/
theorem sampleOffs_eq_div (numSamples numFrames i : Nat) :
    sampleOffs numSamples numFrames i = numSamples * i / numFrames := by
  rw [sampleOffs, div_mul_eq_mul_div, ← Nat.cast_mul, Int.floor_toNat,
    Nat.floor_div_nat, Nat.floor_natCast]

theorem applyEvents_cons_write (s : List activity_type_e) (j : Nat)
    (v : activity_type_e) (t : List event) :
    applyEvents s (event.write j v :: t) = applyEvents (s.set j v) t := rfl

theorem foldl_add_eq (l : List Int) :
    ∀ a : Int, l.foldl (fun x y => x + y) a = a + l.sum := by
  induction l with
  | nil => intro a; simp
  | cons b t ih => intro a; simp [ih, add_assoc]

theorem sumAmplitude_eq (l : List Int) : sumAmplitude l = l.sum := by
  rw [sumAmplitude, foldl_add_eq]
  simp

theorem max_step (m a : Nat) : (if a > m then a else m) = max m a := by
  rcases le_or_lt a m with h | h
  · rw [if_neg (not_lt.mpr h), max_eq_left h]
  · rw [if_pos h, max_eq_right h.le]

theorem foldl_max_aux (l : List Int) :
    ∀ a : Nat, l.foldl (fun m s => if s.natAbs > m then s.natAbs else m) a =
      max a ((l.map Int.natAbs).foldr max 0) := by
  induction l with
  | nil => intro a; simp
  | cons b t ih =>
    intro a
    simp only [List.foldl_cons, List.map_cons, List.foldr_cons]
    rw [max_step, ih, Nat.max_assoc]

theorem maxAmplitude_eq (l : List Int) :
    maxAmplitude l = (l.map Int.natAbs).foldr max 0 := by
  rw [maxAmplitude, foldl_max_aux]
  simp

/-- C7: for a non-empty sample sequence the scanner's `avgAmplitude` is the
arithmetic mean of the signed samples, its `maxAmplitude` is the maximum
absolute sample value, and a directly evaluated frame is classified loud
(hence `Active` in `audioIterEvents`) exactly when the absolute value of its
representative sample strictly exceeds the absolute value of the threshold
`(peak - mean) * 0.001`, which depends only on the sample sequence (it is
the same for every frame of the scan). -/
theorem audio_threshold_and_marking (samples : List Int) (_h : samples ≠ [])
    (numFrames i : Nat) :
    avgAmplitude samples = (samples.sum : ℚ) / (samples.length : ℚ) ∧
    maxAmplitude samples = (samples.map Int.natAbs).foldr max 0 ∧
    (loudSample samples numFrames i = true ↔
      |((sample_at samples (sampleOffs samples.length numFrames i) : ℤ) : ℚ)| >
        |((((samples.map Int.natAbs).foldr max 0 : ℕ) : ℚ) -
            (samples.sum : ℚ) / (samples.length : ℚ)) * (1 / 1000)|) := by
  refine ⟨?_, maxAmplitude_eq samples, ?_⟩
  · rw [avgAmplitude, sumAmplitude_eq]
  · rw [loudSample, decide_eq_true_iff]
    rw [thresholdAmplitude, avgAmplitude, sumAmplitude_eq, maxAmplitude_eq]

/-- Witness for C7 at the concrete samples `[5, -3]`, `numFrames = 2`, `i = 0`. -/
theorem audio_threshold_and_marking_witness :
    avgAmplitude [5, -3] = (([5, -3] : List Int).sum : ℚ) /
      ((([5, -3] : List Int).length : Nat) : ℚ) ∧
    maxAmplitude [5, -3] = (([5, -3] : List Int).map Int.natAbs).foldr max 0 ∧
    (loudSample [5, -3] 2 0 = true ↔
      |((sample_at [5, -3] (sampleOffs ([5, -3] : List Int).length 2 0) : ℤ) : ℚ)| >
        |(((((([5, -3] : List Int).map Int.natAbs).foldr max 0 : ℕ)) : ℚ) -
            (([5, -3] : List Int).sum : ℚ) /
              ((([5, -3] : List Int).length : Nat) : ℚ)) * (1 / 1000)|) :=
  audio_threshold_and_marking [5, -3] (by decide) 2 0

theorem sampleOffs_self (N i : Nat) (h : N ≠ 0) : sampleOffs N N i = i := by
  rw [sampleOffs, div_self (Nat.cast_ne_zero.mpr h), one_mul, Int.floor_natCast,
    Int.toNat_natCast]

theorem exSamplesA_length : exSamplesA.length = 50 := by
  simp [exSamplesA]

set_option maxRecDepth 8192 in
theorem loudA0 : loudSample exSamplesA 50 0 = true := by
  rw [loudSample, decide_eq_true_iff, exSamplesA_length]
  have ho : sampleOffs 50 50 0 = 0 := by
    rw [sampleOffs]
    simp
  rw [ho, show sample_at exSamplesA 0 = 1000 from rfl]
  have hmax : maxAmplitude exSamplesA = 1000 := by decide
  have hsum : sumAmplitude exSamplesA = 1000 := by decide
  rw [thresholdAmplitude, avgAmplitude, hmax, hsum, exSamplesA_length]
  push_cast
  rw [show ((1000 : ℚ) - 1000 / 50) * (1 / 1000) = 49 / 50 by norm_num]
  rw [abs_of_nonneg (by norm_num : (0 : ℚ) ≤ (1000 : ℚ)),
    abs_of_nonneg (by norm_num : (0 : ℚ) ≤ (49 / 50 : ℚ))]
  norm_num

theorem loudAq (i : Nat) (h1 : 1 ≤ i) (h2 : i ≤ 49) :
    loudSample exSamplesA 50 i = false := by
  rw [loudSample, decide_eq_false_iff_not, exSamplesA_length]
  rw [sampleOffs_self 50 i (by norm_num)]
  have hs : sample_at exSamplesA i = 0 := by
    rcases Nat.exists_eq_add_of_le h1 with ⟨j, rfl⟩
    rw [sample_at, exSamplesA, show (1 + j) = j + 1 by omega, List.getD_cons_succ]
    exact getD_replicate 49 j 0
  rw [hs]
  rw [show ((0 : ℤ) : ℚ) = 0 by norm_num, abs_zero]
  exact not_lt.mpr (abs_nonneg _)

theorem audioLoop_quiet (N G : Nat) (ss : List Int) (stop : Nat → Bool)
    (hs : ∀ j, stop j = false) :
    ∀ fuel i, (∀ j, i ≤ j → j < N → loudSample ss N j = false) →
      N ≤ fuel + i →
      ∀ (s : List activity_type_e) (k : Nat) (d : activity_type_e),
        s.length = N → i ≤ k → k < N →
        (applyEvents s (audioLoopE N G ss stop fuel i)).getD k d =
          activity_type_e.Inactive := by
  intro fuel
  induction fuel with
  | zero => intro i hq hf s k d hl hik hkN; omega
  | succ fuel ih =>
    intro i hq hf s k d hl hik hkN
    have hiN : i < N := lt_of_le_of_lt hik hkN
    simp only [audioLoopE, if_pos hiN]
    have hitr : audioIterEvents N G ss i =
        ([event.write i activity_type_e.Inactive], i) := by
      rw [audioIterEvents, hq i le_rfl hiN]
      simp [coalesceWrites]
    simp only [hitr]
    have hsn : stopNow i stop = false := by
      rw [stopNow, hs]
      simp
    rw [hsn, if_neg Bool.false_ne_true]
    rw [List.append_assoc, List.singleton_append, applyEvents_cons_write,
      applyEvents_checkEvents]
    rcases eq_or_lt_of_le hik with heq | hlt
    · subst heq
      rw [applyEvents_getD_of_no_write _ _ _ _
        (writesIndex_of_writesGE _ (i + 1) i
          (audioLoopE_writesGE N G ss stop fuel (i + 1)) (by omega))]
      exact getD_set_self s i _ d (by omega)
    · exact ih (i + 1) (fun j hj hjN => hq j (by omega) hjN) (by omega)
        (s.set i activity_type_e.Inactive) k d (by simpa using hl) hlt hkN

theorem getD_replicate_lt {α : Type} (n k : Nat) (a d : α) (h : k < n) :
    (List.replicate n a).getD k d = a := by
  rw [List.getD_eq_getElem?_getD, List.getElem?_replicate, if_pos h]
  rfl

theorem exAudio_iter0 : audioIterEvents 50 1 exSamplesA 0 =
    ([event.write 0 activity_type_e.Active, event.write 0 activity_type_e.Active],
      1) := by
  rw [audioIterEvents, loudA0]
  simp [numFramesToSkip, coalesceWrites]
  decide

theorem exAudio_step : audioLoopE 50 1 exSamplesA (fun _ => false) (50 + 1) 0 =
    event.write 0 activity_type_e.Active :: event.write 0 activity_type_e.Active ::
      audioLoopE 50 1 exSamplesA (fun _ => false) 50 2 := by
  simp only [audioLoopE]
  rw [if_pos (by norm_num : (0 : Nat) < 50)]
  simp only [exAudio_iter0]
  rw [show stopNow 1 (fun _ => false) = false from rfl, if_neg Bool.false_ne_true]
  rw [show checkEvents 1 (fun _ => false) = [] from rfl]
  simp

theorem exAudio_mark : mark_audio_frame_activity 50 (some exSamplesA)
      (fun _ => false) =
    applyEvents (((List.replicate 50 activity_type_e.Uninitialized).set 0
        activity_type_e.Active).set 0 activity_type_e.Active)
      (audioLoopE 50 1 exSamplesA (fun _ => false) 50 2) := by
  rw [mark_audio_frame_activity]
  rw [show audioEvents 50 (some exSamplesA) (fun _ => false) =
      audioLoopE 50 (50 / 50) exSamplesA (fun _ => false) (50 + 1) 0 from rfl]
  rw [show (50 : Nat) / 50 = 1 by norm_num]
  rw [exAudio_step, applyEvents_cons_write, applyEvents_cons_write]

theorem exAudio_facts :
    (mark_audio_frame_activity 50 (some exSamplesA) (fun _ => false)).length = 50 ∧
    (mark_audio_frame_activity 50 (some exSamplesA) (fun _ => false)).getD 0
      activity_type_e.NoData = activity_type_e.Active ∧
    (mark_audio_frame_activity 50 (some exSamplesA) (fun _ => false)).getD 1
      activity_type_e.NoData = activity_type_e.Uninitialized ∧
    (mark_audio_frame_activity 50 (some exSamplesA) (fun _ => false)).getD 2
      activity_type_e.NoData = activity_type_e.Inactive := by
  have hnw : ∀ k : Nat, k < 2 →
      writesIndex k (audioLoopE 50 1 exSamplesA (fun _ => false) 50 2) = false :=
    fun k hk => writesIndex_of_writesGE _ 2 k
      (audioLoopE_writesGE 50 1 exSamplesA (fun _ => false) 50 2) hk
  refine ⟨?_, ?_, ?_, ?_⟩
  · rw [exAudio_mark, length_applyEvents]
    simp
  · rw [exAudio_mark, applyEvents_getD_of_no_write _ _ _ _ (hnw 0 (by omega))]
    exact getD_set_self _ 0 _ _ (by simp)
  · rw [exAudio_mark, applyEvents_getD_of_no_write _ _ _ _ (hnw 1 (by omega))]
    rw [getD_set_ne _ _ _ _ _ (by omega), getD_set_ne _ _ _ _ _ (by omega)]
    exact getD_replicate_lt 50 1 _ _ (by omega)
  · rw [exAudio_mark]
    exact audioLoop_quiet 50 1 exSamplesA (fun _ => false) (fun j => rfl) 50 2
      (fun j hj hjN => loudAq j (by omega) (by omega)) (by omega) _ 2
      activity_type_e.NoData (by simp) le_rfl (by omega)

/-- C2: the claim says that when frame `i` is directly marked `Active` and
`G = numFrames / 50 > 0`, frames `i+1 .. i+G` (clamped) also become `Active`.
In a 50-frame scan (`G = 1`) of `exSamplesA` (one loud sample at the start,
then silence, no stop request) frame 0 is directly `Active`, but frame 1 --
which the claim requires to be `Active` -- is never written at all: the
coalescing loop of lines 216-219 re-writes frames `i .. i+G-1` (including the
trigger itself) and then the outer `i++` skips frame `i+G`, so it remains
`Uninitialized`.  This contradicts the source's own comment that `G`
subsequent frames are marked active as well; the video scanner patches the
analogous slot with its baseline write, the audio scanner forgot it. -/
theorem audio_coalescing_skips_frame_after_run :
    (mark_audio_frame_activity 50 (some exSamplesA) (fun _ => false)).getD 0
      activity_type_e.NoData = activity_type_e.Active ∧
    (mark_audio_frame_activity 50 (some exSamplesA) (fun _ => false)).getD 1
      activity_type_e.NoData = activity_type_e.Uninitialized :=
  ⟨exAudio_facts.2.1, exAudio_facts.2.2.1⟩

/-- C4: the claim says an uninterrupted scan leaves no `Uninitialized` entry.
For the 50-frame audio scan of `exSamplesA` with the stop flag never set,
the strip has length 50, frame 2 onwards was evaluated (`Inactive`), yet
frame 1 -- skipped by the coalescing run triggered at frame 0 -- remains
`Uninitialized` forever. -/
theorem audio_scan_leaves_uninitialized_entry :
    (mark_audio_frame_activity 50 (some exSamplesA) (fun _ => false)).length = 50 ∧
    (mark_audio_frame_activity 50 (some exSamplesA) (fun _ => false)).getD 2
      activity_type_e.NoData = activity_type_e.Inactive ∧
    (mark_audio_frame_activity 50 (some exSamplesA) (fun _ => false)).getD 1
      activity_type_e.NoData = activity_type_e.Uninitialized :=
  ⟨exAudio_facts.1, exAudio_facts.2.2.2, exAudio_facts.2.2.1⟩
